import Mathlib

/-!
Shallow embedding of `src/main.py`, the `TableExtractor` DocumentCloud add-on
that extracts tables from documents with Azure Document Intelligence.

The embedding follows the source function by function: `calculate_cost`,
`validate`, `get_table_data` and `convert_to_csv` become Lean functions over
explicit data, and the control flow of `main` up to and including the
page-iteration loop becomes `runMain`, a function from the run's environment
(configuration dictionary, selected documents, billing state) to an outcome.
Python exceptions that the source does not catch (`TypeError` from comparing
`None`, `ValueError` from `max` of an empty sequence) are modelled as the
`none` / `crashed` outcomes of the corresponding functions.  Python integers
are `Int` (arbitrary precision, no overflow); dictionary lookups with
`dict.get` are `Option` values.
-/

/-- A document of the hosting platform as the add-on sees it: an opaque id
and its total page count (`doc.page_count` in the source). -/
structure Doc where
  id : Nat
  page_count : Int
  deriving DecidableEq

/-- The add-on's configuration dictionary `self.data`.  A key read with
`self.data.get(k)` yields `none` when absent; reads with an explicit default
are modelled with `Option.getD`. -/
structure AddOnData where
  output_format : Option String
  start_page : Option Int
  end_page : Option Int
  deriving DecidableEq

/-- One loop iteration of `calculate_cost` (src/main.py lines 25-30): the
pages one document contributes, `last_page - start_page + 1` where
`last_page` is `end_page` clamped to the document's page count. -/
def docPages (doc : Doc) (start_page end_page : Int) : Int :=
  let last_page := if end_page ≤ doc.page_count then end_page else doc.page_count
  last_page - start_page + 1

/-- The page total accumulated by the loop of `calculate_cost`.  The source
reads `end_page = self.data.get("end_page")` with no default inside the loop
body, so when the key is absent and at least one document is present the
comparison `end_page <= doc.page_count` raises a `TypeError`; that uncaught
error is the `none` outcome.  An empty document set never enters the loop and
totals `0`. -/
def totalPages : List Doc → AddOnData → Option Int
  | [], _ => some 0
  | doc :: rest, data =>
    match data.end_page with
    | none => none
    | some e =>
      match totalPages rest data with
      | none => none
      | some acc => some (docPages doc (data.start_page.getD 1) e + acc)

/-- `TableExtractor.calculate_cost` (src/main.py lines 19-34): the total page
count across the given documents times the rate of 7 credits per page.
`none` models the uncaught `TypeError` raised when `end_page` is absent from
the configuration and at least one document is present. -/
def calculate_cost (documents : List Doc) (data : AddOnData) : Option Int :=
  (totalPages documents data).map (fun n => n * 7)

/-- Python's `range(a, b)` over integers: `[a, a + 1, ..., b - 1]`, empty
when `b ≤ a`. -/
def pyRange (a b : Int) : List Int :=
  List.map (fun n : Nat => a + (n : Int)) (List.range (b - a).toNat)

/-- The pages of one document submitted to the analysis service by the loop
of `TableExtractor.main` (src/main.py lines 153-156): `outer_bound` is
`end_page + 1` clamped to `page_count + 1`, and the pages iterated are
`range(start_page, outer_bound)`. -/
def pagesForDoc (doc : Doc) (start_page end_page : Int) : List Int :=
  let outer_bound :=
    if end_page > doc.page_count then doc.page_count + 1 else end_page + 1
  pyRange start_page outer_bound

/-- Message set when no documents are selected (src/main.py lines 41-44). -/
def msgNoDocs : String :=
  "It looks like no documents were selected. Search for some or select them and run again."

/-- Message set when no billing organization exists (src/main.py line 47). -/
def msgNoOrg : String := "No organization to charge."

/-- Message set by `main` when `validate` returns `False` (src/main.py
lines 128-130). -/
def msgNoCredits : String :=
  "You do not have sufficient AI credits to run this Add-On on this document set"

/-- Message set when the end page is smaller than the start page
(src/main.py line 134). -/
def msgEndBeforeStart : String :=
  "The end page you provided is smaller than the start page, try again"

/-- Message set when the start page is smaller than 1 (src/main.py
line 137). -/
def msgBadStart : String := "Your start page is less than 1, please try again"

/-- The environment a run observes through the add-on framework: the
configuration dictionary, the selected documents, whether
`get_document_count()` returned `None`, whether `self.org_id` is truthy, and
whether `charge_credits` raises (`ValueError` for insufficient funds or
`APIError` from the billing API). -/
structure RunEnv where
  data : AddOnData
  documents : List Doc
  docCountNone : Bool
  hasOrg : Bool
  chargeFails : Bool
  deriving DecidableEq

/-- The ways `TableExtractor.validate` can end: `sys.exit(code)` with a
message set, an ordinary `return` of a boolean, or an uncaught exception
propagating out of `calculate_cost`. -/
inductive ValidateResult where
  | exited (exitCode : Nat) (message : String)
  | returned (ok : Bool)
  | crashed
  deriving DecidableEq

/-- `TableExtractor.validate` (src/main.py lines 37-58): the document gate,
the organization gate, then cost computation and the credit charge whose
`ValueError` / `APIError` are caught and turned into `False`. -/
def validate (env : RunEnv) : ValidateResult :=
  if env.docCountNone then ValidateResult.exited 0 msgNoDocs
  else if !env.hasOrg then ValidateResult.exited 0 msgNoOrg
  else
    match calculate_cost env.documents env.data with
    | none => ValidateResult.crashed
    | some _ =>
      if env.chargeFails then ValidateResult.returned false
      else ValidateResult.returned true

/-- The outcome of a run of `TableExtractor.main`: a graceful halt
(`sys.exit(code)` with a message set and no archive produced), an uncaught
exception, or reaching the analysis phase, recorded as the ordered list of
`(document id, page number)` analysis calls the loop performs. -/
inductive RunOutcome where
  | halted (exitCode : Nat) (message : String)
  | crashed
  | completed (calls : List (Nat × Int))
  deriving DecidableEq

/-- `TableExtractor.main` up to the analysis loop (src/main.py
lines 121-167): configuration reads with their defaults, the `validate`
gate, the two page-range checks, then for each document the clamped page
iteration submitting pages to the analysis service. -/
def runMain (env : RunEnv) : RunOutcome :=
  let start_page := env.data.start_page.getD 1
  let end_page := env.data.end_page.getD 1
  match validate env with
  | ValidateResult.crashed => RunOutcome.crashed
  | ValidateResult.exited code msg => RunOutcome.halted code msg
  | ValidateResult.returned false => RunOutcome.halted 0 msgNoCredits
  | ValidateResult.returned true =>
    if end_page < start_page then RunOutcome.halted 0 msgEndBeforeStart
    else if start_page < 1 then RunOutcome.halted 0 msgBadStart
    else
      RunOutcome.completed
        (env.documents.flatMap (fun d =>
          (pagesForDoc d start_page end_page).map (fun p => (d.id, p))))

/-- One cell of one table in an Azure analysis result, as the source reads
it: `cell.row_index`, `cell.column_index`, `cell.content`.  The indices are
0-based and nonnegative. -/
structure AzureCell where
  row_index : Nat
  column_index : Nat
  content : String
  deriving DecidableEq

/-- One table of an Azure analysis result: its cells in the order the
service returned them. -/
structure AzureTable where
  cells : List AzureCell
  deriving DecidableEq

/-- The analysis-service result for one page: `result.tables` in service
order. -/
structure AnalyzeResult where
  tables : List AzureTable
  deriving DecidableEq

/-- The `cell_info` dictionary built by `get_table_data` (src/main.py
lines 72-76). -/
structure CellInfo where
  row_index : Nat
  column_index : Nat
  content : String
  deriving DecidableEq

/-- The `table_info` dictionary built by `get_table_data` (src/main.py
lines 65-68): the page number and the cell records in arrival order. -/
structure TableInfo where
  page_number : Int
  cells : List CellInfo
  deriving DecidableEq

/-- `TableExtractor.get_table_data` (src/main.py lines 60-82): for each
table of the result, in order, append a record holding the given page number
and, for each cell of the table, in order, its row index, column index and
content. -/
def get_table_data (result : AnalyzeResult) (page_number : Int) : List TableInfo :=
  result.tables.foldl
    (fun table_data table =>
      table_data ++
        [{ page_number := page_number
           cells := table.cells.foldl
             (fun cells cell =>
               cells ++
                 [{ row_index := cell.row_index
                    column_index := cell.column_index
                    content := cell.content }])
             [] }])
    []

/-- One value of a csv row built by `convert_to_csv`: the source mixes the
raw string contents with the integer page number of the header row. -/
inductive CsvItem where
  | str (s : String)
  | int (i : Int)
  deriving DecidableEq

/-- The expression `max(cell["row_index"] for cell in table_info["cells"])`
of src/main.py line 100: `none` models the `ValueError` Python raises when
the sequence is empty. -/
def maxRowIndex (cells : List CellInfo) : Option Nat :=
  match cells with
  | [] => none
  | c :: rest => some (rest.foldl (fun m x => max m x.row_index) c.row_index)

/-- The cell-placement loop of `convert_to_csv` (src/main.py lines 104-108):
each cell's content is appended to `rows[row_index]` in arrival order; the
cell's `column_index` is bound on line 106 but never used. -/
def fillRows : List (List CsvItem) → List CellInfo → List (List CsvItem)
  | rows, [] => rows
  | rows, c :: rest =>
    fillRows
      (rows.set c.row_index (rows.getD c.row_index [] ++ [CsvItem.str c.content]))
      rest

/-- The rows one `table_info` contributes inside `convert_to_csv`: the
header row `["Page Number:", page_number]`, then the filled content rows,
then two blank separator rows.  `none` models the uncaught `ValueError` from
`max` when the table has no cells. -/
def tableBlock (table_info : TableInfo) : Option (List (List CsvItem)) :=
  match maxRowIndex table_info.cells with
  | none => none
  | some m =>
    some
      ([[CsvItem.str "Page Number:", CsvItem.int table_info.page_number]]
        ++ fillRows (List.replicate (m + 1) []) table_info.cells
        ++ [[], []])

/-- `TableExtractor.convert_to_csv` (src/main.py lines 95-113): the blocks
of all tables concatenated in table order; `none` models the uncaught
`ValueError` raised for a table whose cell list is empty. -/
def convert_to_csv : List TableInfo → Option (List (List CsvItem))
  | [] => some []
  | table_info :: rest =>
    match tableBlock table_info with
    | none => none
    | some block =>
      match convert_to_csv rest with
      | none => none
      | some tail => some (block ++ tail)

/-- The same table data with every cell's `column_index` rewritten by `g`;
used to state that `convert_to_csv` never lets the column index influence
its output. -/
def remapColumns (g : Nat → Nat) (table_data : List TableInfo) : List TableInfo :=
  table_data.map (fun ti =>
    { ti with cells := ti.cells.map (fun c => { c with column_index := g c.column_index }) })

/-- A JSON document, the value `json.dumps` serializes and `json.loads`
parses back: the fragment needed for the structured export (numbers here are
integers, which `json` round-trips exactly). -/
inductive Json where
  | num (n : Int)
  | str (s : String)
  | arr (xs : List Json)
  | obj (fields : List (String × Json))

/-- The JSON value of one `cell_info` dictionary as `json.dumps` sees it in
the structured export (src/main.py line 170). -/
def encodeCell (cell : CellInfo) : Json :=
  Json.obj
    [("row_index", Json.num cell.row_index),
     ("column_index", Json.num cell.column_index),
     ("content", Json.str cell.content)]

/-- The JSON value of one `table_info` dictionary as `json.dumps` sees it in
the structured export (src/main.py line 170). -/
def encodeTable (table_info : TableInfo) : Json :=
  Json.obj
    [("page_number", Json.num table_info.page_number),
     ("cells", Json.arr (table_info.cells.map encodeCell))]

/-- The JSON value of the accumulated `table_data` list that `json.dumps`
serializes into `tables-<document-id>.json` (src/main.py lines 169-172). -/
def encodeTableData (table_data : List TableInfo) : Json :=
  Json.arr (table_data.map encodeTable)

/-- Reading one cell record back out of a parsed JSON value. -/
def decodeCell : Json → Option CellInfo
  | Json.obj [("row_index", Json.num r), ("column_index", Json.num c),
      ("content", Json.str s)] =>
    if 0 ≤ r ∧ 0 ≤ c then
      some { row_index := r.toNat, column_index := c.toNat, content := s }
    else none
  | _ => none

/-- Reading one table record back out of a parsed JSON value. -/
def decodeTable : Json → Option TableInfo
  | Json.obj [("page_number", Json.num p), ("cells", Json.arr cs)] =>
    (cs.mapM decodeCell).map (fun cells => { page_number := p, cells := cells })
  | _ => none

/-- Reading the whole exported structure back out of a parsed JSON value. -/
def decodeTableData : Json → Option (List TableInfo)
  | Json.arr xs => xs.mapM decodeTable
  | _ => none

/-- A run whose configuration has no `end_page` key: one selected document
of one page, an organization to bill, a charge that would succeed. -/
def envMissingEnd : RunEnv :=
  { data := { output_format := none, start_page := none, end_page := none }
    documents := [{ id := 0, page_count := 1 }]
    docCountNone := false
    hasOrg := true
    chargeFails := false }

/-- The run `envMissingEnd` with `end_page` supplied as `1`, its documented
default. -/
def envEndOne : RunEnv :=
  { data := { output_format := none, start_page := none, end_page := some 1 }
    documents := [{ id := 0, page_count := 1 }]
    docCountNone := false
    hasOrg := true
    chargeFails := false }

/-- A run whose one document is shorter than the configured start page:
`page_count = 1`, `start_page = 3`, `end_page = 5`.  Every validation gate
passes, so the run reaches the analysis phase. -/
def envShortDoc : RunEnv :=
  { data := { output_format := none, start_page := some 3, end_page := some 5 }
    documents := [{ id := 0, page_count := 1 }]
    docCountNone := false
    hasOrg := true
    chargeFails := false }

/-- A run with no documents selected and `end_page` supplied. -/
def envNoDocs : RunEnv :=
  { data := { output_format := none, start_page := none, end_page := some 1 }
    documents := []
    docCountNone := true
    hasOrg := true
    chargeFails := false }

/-- A table record whose row 0 receives two cells whose column indices
arrive out of order (5 then 2), with a row 1 cell in between. -/
def tiW : TableInfo :=
  { page_number := 1
    cells := [{ row_index := 0, column_index := 5, content := "a" },
              { row_index := 1, column_index := 0, content := "b" },
              { row_index := 0, column_index := 2, content := "c" }] }

/-- Table data holding one table with cells at row indices 0, 1 and 2. -/
def tdW : List TableInfo :=
  [{ page_number := 7
     cells := [{ row_index := 0, column_index := 0, content := "a" },
               { row_index := 1, column_index := 0, content := "b" },
               { row_index := 2, column_index := 0, content := "c" }] }]

/-- Each document contributes `min end_page page_count - start_page + 1`
pages to the cost total. -/
theorem docPages_eq (doc : Doc) (s e : Int) :
    docPages doc s e = min e doc.page_count - s + 1 := by
  simp only [docPages]
  split <;> omega

/-- With `end_page` present the cost loop never raises and totals the
per-document contributions. -/
theorem totalPages_eq_sum (documents : List Doc) (data : AddOnData) (e : Int)
    (he : data.end_page = some e) :
    totalPages documents data =
      some ((documents.map (fun d => docPages d (data.start_page.getD 1) e)).sum) := by
  induction documents with
  | nil => simp [totalPages]
  | cons d rest ih => simp [totalPages, he, ih]

/-- C1: for every set of documents and every configured pair
`(start_page, end_page)`, `calculate_cost` returns exactly
`(sum over documents of (min end_page page_count - start_page + 1)) * 7`; a
per-document contribution is negative when `page_count < start_page - 1`,
exactly as the formula states. -/
theorem calculate_cost_formula (documents : List Doc) (fmt : Option String) (s e : Int) :
    calculate_cost documents
        { output_format := fmt, start_page := some s, end_page := some e } =
      some ((documents.map (fun d => min e d.page_count - s + 1)).sum * 7) := by
  rw [calculate_cost,
    totalPages_eq_sum documents { output_format := fmt, start_page := some s, end_page := some e } e rfl]
  simp [docPages_eq]

/-- Membership in the embedded Python `range`. -/
theorem pyRange_mem (a b p : Int) : p ∈ pyRange a b ↔ a ≤ p ∧ p < b := by
  unfold pyRange
  simp only [List.mem_map, List.mem_range]
  constructor
  · rintro ⟨i, hi, rfl⟩
    omega
  · intro h
    exact ⟨(p - a).toNat, by omega, by omega⟩

/-- The embedded Python `range` is strictly increasing. -/
theorem pyRange_pairwise (a b : Int) : (pyRange a b).Pairwise (· < ·) := by
  unfold pyRange
  exact (List.pairwise_lt_range _).map _ (by intro i j h; omega)

/-- The page loop of `main` iterates `range start_page (min end_page page_count + 1)`. -/
theorem pagesForDoc_outer (doc : Doc) (s e : Int) :
    pagesForDoc doc s e = pyRange s (min e doc.page_count + 1) := by
  simp only [pagesForDoc]
  congr 1
  split <;> omega

/-- C4: for every document, the pages submitted to the analysis service are
exactly the pages from `start_page` through `min end_page page_count`
inclusive, in strictly increasing order; a document with
`page_count < start_page` yields no analysis calls. -/
theorem pagesForDoc_spec (doc : Doc) (s e : Int) :
    (∀ p : Int, p ∈ pagesForDoc doc s e ↔ s ≤ p ∧ p ≤ min e doc.page_count)
      ∧ (pagesForDoc doc s e).Pairwise (· < ·)
      ∧ (doc.page_count < s → pagesForDoc doc s e = []) := by
  refine ⟨?_, ?_, ?_⟩
  · intro p
    rw [pagesForDoc_outer, pyRange_mem]
    omega
  · rw [pagesForDoc_outer]
    exact pyRange_pairwise _ _
  · intro h
    rw [pagesForDoc_outer]
    unfold pyRange
    have hz : (min e doc.page_count + 1 - s).toNat = 0 := by omega
    rw [hz]
    rfl

/-- When the cost computation succeeds, `runMain` is the chain of the five
gates in source order, ending in the analysis loop. -/
theorem runMain_eq_gates (env : RunEnv) (c : Int)
    (hc : calculate_cost env.documents env.data = some c) :
    runMain env =
      if env.docCountNone then RunOutcome.halted 0 msgNoDocs
      else if !env.hasOrg then RunOutcome.halted 0 msgNoOrg
      else if env.chargeFails then RunOutcome.halted 0 msgNoCredits
      else if env.data.end_page.getD 1 < env.data.start_page.getD 1 then
        RunOutcome.halted 0 msgEndBeforeStart
      else if env.data.start_page.getD 1 < 1 then RunOutcome.halted 0 msgBadStart
      else
        RunOutcome.completed
          (env.documents.flatMap (fun d =>
            (pagesForDoc d (env.data.start_page.getD 1) (env.data.end_page.getD 1)).map
              (fun p => (d.id, p)))) := by
  by_cases h1 : env.docCountNone
  · simp [runMain, validate, h1]
  by_cases h2 : env.hasOrg
  · by_cases h3 : env.chargeFails
    · simp [runMain, validate, h1, h2, h3, hc]
    · simp [runMain, validate, h1, h2, h3, hc]
  · simp [runMain, validate, h1, h2]

/-- A run that reaches the analysis phase computed some cost during
validation. -/
theorem runMain_completed_cost (env : RunEnv) (calls : List (Nat × Int))
    (h : runMain env = RunOutcome.completed calls) :
    ∃ c, calculate_cost env.documents env.data = some c := by
  cases hc : calculate_cost env.documents env.data with
  | some c => exact ⟨c, rfl⟩
  | none =>
    exfalso
    by_cases h1 : env.docCountNone
    · simp [runMain, validate, h1] at h
    by_cases h2 : env.hasOrg
    · simp [runMain, validate, h1, h2, hc] at h
    · simp [runMain, validate, h1, h2] at h

/-- C2: with the required `end_page` key present, the run halts before the
analysis phase exactly when no documents are selected, no billing
organization exists, the credit charge fails, the end page is smaller than
the start page, or the start page is smaller than 1; every halt is a
`sys.exit(0)` — a success exit status — carrying a nonempty human-readable
message; and the run never ends in an uncaught exception, so halting and
reaching the analysis phase (the only outcome that produces an archive) are
the two exhaustive outcomes. -/
theorem runMain_halt_iff (env : RunEnv) (e : Int)
    (he : env.data.end_page = some e) :
    ((∃ msg, runMain env = RunOutcome.halted 0 msg) ↔
      (env.docCountNone = true ∨ env.hasOrg = false ∨ env.chargeFails = true ∨
        e < env.data.start_page.getD 1 ∨ env.data.start_page.getD 1 < 1))
    ∧ (∀ code msg, runMain env = RunOutcome.halted code msg → code = 0 ∧ msg ≠ "")
    ∧ runMain env ≠ RunOutcome.crashed := by
  have hc : calculate_cost env.documents env.data =
      some ((env.documents.map (fun d => docPages d (env.data.start_page.getD 1) e)).sum * 7) := by
    rw [calculate_cost, totalPages_eq_sum env.documents env.data e he]
    rfl
  rw [runMain_eq_gates env _ hc, he]
  simp only [Option.getD_some]
  split_ifs with h1 h2 h3 h4 h5
  · refine ⟨⟨fun _ => Or.inl h1, fun _ => ⟨msgNoDocs, rfl⟩⟩, ?_, by simp⟩
    intro code msg hh
    injection hh with hcode hmsg
    subst hcode
    subst hmsg
    exact ⟨rfl, by decide⟩
  · refine ⟨⟨fun _ => Or.inr (Or.inl (by simpa using h2)),
        fun _ => ⟨msgNoOrg, rfl⟩⟩, ?_, by simp⟩
    intro code msg hh
    injection hh with hcode hmsg
    subst hcode
    subst hmsg
    exact ⟨rfl, by decide⟩
  · refine ⟨⟨fun _ => Or.inr (Or.inr (Or.inl h3)),
        fun _ => ⟨msgNoCredits, rfl⟩⟩, ?_, by simp⟩
    intro code msg hh
    injection hh with hcode hmsg
    subst hcode
    subst hmsg
    exact ⟨rfl, by decide⟩
  · refine ⟨⟨fun _ => Or.inr (Or.inr (Or.inr (Or.inl h4))),
        fun _ => ⟨msgEndBeforeStart, rfl⟩⟩, ?_, by simp⟩
    intro code msg hh
    injection hh with hcode hmsg
    subst hcode
    subst hmsg
    exact ⟨rfl, by decide⟩
  · refine ⟨⟨fun _ => Or.inr (Or.inr (Or.inr (Or.inr h5))),
        fun _ => ⟨msgBadStart, rfl⟩⟩, ?_, by simp⟩
    intro code msg hh
    injection hh with hcode hmsg
    subst hcode
    subst hmsg
    exact ⟨rfl, by decide⟩
  · refine ⟨⟨?_, ?_⟩, ?_, by simp⟩
    · rintro ⟨msg, hmsg⟩
      exact absurd hmsg (by simp)
    · intro hd
      rcases hd with h | h | h | h | h
      · exact absurd h h1
      · exact (h2 (by simp [h])).elim
      · exact absurd h h3
      · exact absurd h h4
      · exact absurd h h5
    · intro code msg hh
      exact absurd hh (by simp)

/-- Witness for C2 at a concrete run that halts at the document gate. -/
theorem runMain_halt_iff_witness :
    (∃ msg, runMain envNoDocs = RunOutcome.halted 0 msg) ↔
      (envNoDocs.docCountNone = true ∨ envNoDocs.hasOrg = false ∨
        envNoDocs.chargeFails = true ∨
        (1 : Int) < envNoDocs.data.start_page.getD 1 ∨
        envNoDocs.data.start_page.getD 1 < 1) :=
  (runMain_halt_iff envNoDocs 1 rfl).1

/-- C9: the documented `end_page` default of 1 is applied by the page loop
of `main` but not by `calculate_cost`, which reads the key with no default:
with `end_page` absent and one selected one-page document, the cost
computation raises an uncaught `TypeError` and the run crashes during
validation, while the same run with `end_page` supplied as 1 completes and
analyzes page 1. -/
theorem missing_end_page_crashes :
    calculate_cost envMissingEnd.documents envMissingEnd.data = none
      ∧ runMain envMissingEnd = RunOutcome.crashed
      ∧ runMain envEndOne = RunOutcome.completed [(0, 1)] :=
  ⟨rfl, rfl, rfl⟩

/-- Length of the embedded Python `range`. -/
theorem pyRange_length (a b : Int) : (pyRange a b).length = (b - a).toNat := by
  simp [pyRange]

/-- With `start_page ≤ end_page` and a document no shorter than
`start_page - 1`, the number of pages the loop iterates equals the
document's cost contribution. -/
theorem pagesForDoc_length_eq (doc : Doc) (s e : Int) (hse : s ≤ e)
    (hp : s ≤ doc.page_count + 1) :
    ((pagesForDoc doc s e).length : Int) = docPages doc s e := by
  rw [pagesForDoc_outer, pyRange_length, docPages_eq]
  omega

/-- C5 counterexample: a run with one one-page document, `start_page = 3`
and `end_page = 5` passes every validation gate and reaches the analysis
phase with an empty page iteration — zero pages are analyzed — yet the cost
charged during validation is `-7`, not `7 * 0`. -/
theorem charge_divergence_cx :
    runMain envShortDoc = RunOutcome.completed []
      ∧ calculate_cost envShortDoc.documents envShortDoc.data = some (-7)
      ∧ (-7 : Int) ≠ 7 * (([] : List (Nat × Int)).length : Int) :=
  ⟨rfl, rfl, by decide⟩

/-- C5 amended: for every run that reaches the analysis phase in which no
selected document is shorter than `start_page - 1` pages, the cost charged
during validation equals 7 credits times the number of pages actually
analyzed during execution, summed across all documents.  The added
hypothesis is forced by `charge_divergence_cx`: a document with
`page_count < start_page - 1` contributes negatively to the cost while the
execution loop analyzes none of its pages. -/
theorem charge_matches_work (env : RunEnv) (calls : List (Nat × Int))
    (hrun : runMain env = RunOutcome.completed calls)
    (hdocs : ∀ d ∈ env.documents, env.data.start_page.getD 1 ≤ d.page_count + 1) :
    calculate_cost env.documents env.data = some (7 * (calls.length : Int)) := by
  obtain ⟨c, hc⟩ := runMain_completed_cost env calls hrun
  rw [runMain_eq_gates env c hc] at hrun
  split_ifs at hrun with h1 h2 h3 h4 h5
  injection hrun with hcalls
  subst hcalls
  cases hend : env.data.end_page with
  | none =>
    cases hdoclist : env.documents with
    | nil => simp [hdoclist, calculate_cost, totalPages]
    | cons d rest =>
      rw [hdoclist, calculate_cost] at hc
      simp [totalPages, hend] at hc
  | some e =>
    rw [hend] at h4
    simp only [Option.getD_some] at h4
    push_neg at h4
    have hcost2 : calculate_cost env.documents env.data =
        some ((env.documents.map
          (fun d => docPages d (env.data.start_page.getD 1) e)).sum * 7) := by
      rw [calculate_cost, totalPages_eq_sum env.documents env.data e hend]
      rfl
    rw [hcost2]
    simp only [hend, Option.getD_some]
    congr 1
    rw [List.length_flatMap, mul_comm]
    rw [Nat.cast_list_sum, List.map_map]
    congr 1
    apply congrArg List.sum
    apply List.map_congr_left
    intro d hd
    simp only [Function.comp_apply, List.length_map]
    exact (pagesForDoc_length_eq d _ e h4 (hdocs d hd)).symm

/-- Witness for the amended C5 at a concrete run analyzing one page. -/
theorem charge_matches_work_witness :
    calculate_cost envEndOne.documents envEndOne.data =
      some (7 * (([((0 : Nat), (1 : Int))] : List (Nat × Int)).length : Int)) :=
  charge_matches_work envEndOne [(0, 1)] (by decide) (by decide)

/-- A loop that appends one shaped element per iteration is a map. -/
theorem foldl_append_eq_map {α β : Type} (f : α → β) (l : List α) :
    ∀ init : List β, l.foldl (fun acc x => acc ++ [f x]) init = init ++ l.map f := by
  induction l with
  | nil => intro init; simp
  | cons x xs ih => intro init; simp [ih]

/-- The shaper equals the map it implements: one record per table carrying
the given page number, one cell record per cell, in service order. -/
theorem get_table_data_eq_map (result : AnalyzeResult) (page_number : Int) :
    get_table_data result page_number =
      result.tables.map (fun t =>
        { page_number := page_number
          cells := t.cells.map (fun c =>
            { row_index := c.row_index
              column_index := c.column_index
              content := c.content }) }) := by
  simp only [get_table_data, foldl_append_eq_map, List.nil_append]

/-- C6: the Table Result Shaper is a pure map over the analysis result: it
returns exactly one record per table, each holding the given page number and
exactly one cell record per cell of that table, preserving the service's
table order and per-table cell order with no re-sorting. -/
theorem get_table_data_spec (result : AnalyzeResult) (page_number : Int) :
    (get_table_data result page_number =
      result.tables.map (fun t =>
        { page_number := page_number
          cells := t.cells.map (fun c =>
            { row_index := c.row_index
              column_index := c.column_index
              content := c.content }) }))
    ∧ (get_table_data result page_number).length = result.tables.length
    ∧ ∀ i : Nat,
        ((get_table_data result page_number).getD i
            { page_number := 0, cells := [] }).cells.length =
          ((result.tables.getD i { cells := [] }).cells).length := by
  refine ⟨get_table_data_eq_map result page_number, ?_, ?_⟩
  · rw [get_table_data_eq_map, List.length_map]
  · intro i
    rw [get_table_data_eq_map, List.getD_eq_getElem?_getD, List.getElem?_map,
      List.getD_eq_getElem?_getD]
    cases hti : result.tables[i]? with
    | none => rfl
    | some t => simp

/-- A table record with no cells anywhere in the data makes `convert_to_csv`
raise. -/
theorem convert_to_csv_none_of_empty :
    ∀ table_data : List TableInfo, ∀ ti ∈ table_data, ti.cells = [] →
      convert_to_csv table_data = none := by
  intro td
  induction td with
  | nil => intro ti h; cases h
  | cons hd rest ih =>
    intro ti hmem hcells
    rcases List.mem_cons.mp hmem with rfl | hmem2
    · simp [convert_to_csv, tableBlock, maxRowIndex, hcells]
    · cases hb : tableBlock hd with
      | none => simp [convert_to_csv, hb]
      | some b => simp [convert_to_csv, hb, ih ti hmem2 hcells]

/-- C10: `convert_to_csv` is only defined for table records with at least
one cell: whenever the analysis result contains a zero-cell table — which
the shaper turns into a record with an empty cell list — the csv export path
raises the uncaught `ValueError` from `max` of an empty sequence, modelled
as the `none` outcome. -/
theorem convert_to_csv_empty_cells (result : AnalyzeResult) (page_number : Int)
    (t : AzureTable) (hmem : t ∈ result.tables) (hcells : t.cells = []) :
    convert_to_csv (get_table_data result page_number) = none := by
  apply convert_to_csv_none_of_empty (get_table_data result page_number)
      ({ page_number := page_number, cells := [] } : TableInfo)
  · rw [get_table_data_eq_map]
    have hshape : ({ page_number := page_number, cells := [] } : TableInfo) =
        { page_number := page_number
          cells := t.cells.map (fun c =>
            { row_index := c.row_index
              column_index := c.column_index
              content := c.content }) } := by
      rw [hcells]
      rfl
    rw [hshape]
    exact List.mem_map_of_mem _ hmem
  · rfl

/-- Witness for C10: a result holding one zero-cell table. -/
theorem convert_to_csv_empty_cells_witness :
    convert_to_csv (get_table_data { tables := [{ cells := [] }] } 4) = none :=
  convert_to_csv_empty_cells { tables := [{ cells := [] }] } 4 { cells := [] }
    (by decide) rfl

/-- Reading back the entry `set` wrote. -/
theorem getD_set_self {α : Type} (l : List α) (i : Nat) (a d : α)
    (h : i < l.length) : (l.set i a).getD i d = a := by
  rw [List.getD_eq_getElem?_getD, List.getElem?_set_self h]
  rfl

/-- Reading an entry `set` did not touch. -/
theorem getD_set_ne {α : Type} (l : List α) (i j : Nat) (a d : α)
    (h : i ≠ j) : (l.set i a).getD j d = l.getD j d := by
  rw [List.getD_eq_getElem?_getD, List.getElem?_set_ne h,
    ← List.getD_eq_getElem?_getD]

/-- Filling rows never changes how many rows there are. -/
theorem fillRows_length (cells : List CellInfo) :
    ∀ rows : List (List CsvItem), (fillRows rows cells).length = rows.length := by
  induction cells with
  | nil => intro rows; rfl
  | cons c rest ih =>
    intro rows
    rw [fillRows, ih, List.length_set]

/-- Each content row collects, in arrival order, exactly the contents of the
cells bearing its row index; no cell's column index plays any part. -/
theorem fillRows_getD (cells : List CellInfo) :
    ∀ (rows : List (List CsvItem)) (r : Nat),
      (∀ c ∈ cells, c.row_index < rows.length) → r < rows.length →
      (fillRows rows cells).getD r [] =
        rows.getD r [] ++
          (cells.filter (fun c => c.row_index == r)).map
            (fun c => CsvItem.str c.content) := by
  induction cells with
  | nil => intro rows r _ _; simp [fillRows]
  | cons c rest ih =>
    intro rows r hb hr
    rw [fillRows]
    rw [ih (rows.set c.row_index (rows.getD c.row_index [] ++ [CsvItem.str c.content])) r
      (by
        intro x hx
        rw [List.length_set]
        exact hb x (List.mem_cons_of_mem c hx))
      (by rw [List.length_set]; exact hr)]
    by_cases hcr : c.row_index = r
    · subst hcr
      rw [getD_set_self _ _ _ _ (hb c (List.mem_cons_self c rest))]
      rw [List.filter_cons]
      simp [List.append_assoc]
    · rw [getD_set_ne _ _ _ _ _ hcr]
      rw [List.filter_cons]
      have hbeq : (c.row_index == r) = false := by simpa using hcr
      rw [hbeq]
      simp

/-- The running maximum of the fold only grows. -/
theorem le_foldl_max (rest : List CellInfo) :
    ∀ a : Nat, a ≤ rest.foldl (fun m x => max m x.row_index) a := by
  induction rest with
  | nil => intro a; exact le_refl a
  | cons c cs ih =>
    intro a
    rw [List.foldl_cons]
    exact le_trans (le_max_left a c.row_index) (ih (max a c.row_index))

/-- Every listed cell's row index is bounded by the fold's result. -/
theorem mem_le_foldl_max (rest : List CellInfo) :
    ∀ a : Nat, ∀ c ∈ rest,
      c.row_index ≤ rest.foldl (fun m x => max m x.row_index) a := by
  induction rest with
  | nil => intro a c hc; cases hc
  | cons x cs ih =>
    intro a c hc
    rw [List.foldl_cons]
    rcases List.mem_cons.mp hc with rfl | hc2
    · exact le_trans (le_max_right a c.row_index) (le_foldl_max cs (max a c.row_index))
    · exact ih (max a x.row_index) c hc2

/-- The `max` of a nonempty cell list bounds every row index in it. -/
theorem maxRowIndex_bound (cells : List CellInfo) (m : Nat)
    (h : maxRowIndex cells = some m) : ∀ c ∈ cells, c.row_index ≤ m := by
  cases cells with
  | nil => cases h
  | cons c0 rest =>
    simp only [maxRowIndex, Option.some.injEq] at h
    intro c hc
    rcases List.mem_cons.mp hc with rfl | hc2
    · rw [← h]
      exact le_foldl_max rest c.row_index
    · rw [← h]
      exact mem_le_foldl_max rest c0.row_index c hc2

/-- A nonempty cell list has a `max`. -/
theorem maxRowIndex_isSome (cells : List CellInfo) (h : cells ≠ []) :
    ∃ m, maxRowIndex cells = some m := by
  cases cells with
  | nil => exact absurd rfl h
  | cons c rest => exact ⟨_, rfl⟩

/-- Rewriting column indices does not change the row maximum. -/
theorem maxRowIndex_remap (g : Nat → Nat) (cells : List CellInfo) :
    maxRowIndex (cells.map (fun c => { c with column_index := g c.column_index })) =
      maxRowIndex cells := by
  cases cells with
  | nil => rfl
  | cons c rest =>
    simp only [List.map_cons, maxRowIndex, List.foldl_map]

/-- Rewriting column indices does not change how rows are filled. -/
theorem fillRows_remap (g : Nat → Nat) (cells : List CellInfo) :
    ∀ rows : List (List CsvItem),
      fillRows rows (cells.map (fun c => { c with column_index := g c.column_index })) =
        fillRows rows cells := by
  induction cells with
  | nil => intro rows; rfl
  | cons c rest ih =>
    intro rows
    rw [List.map_cons, fillRows, fillRows]
    exact ih _

/-- Rewriting column indices does not change a table's block. -/
theorem tableBlock_remap (g : Nat → Nat) (ti : TableInfo) :
    tableBlock
        { ti with cells := ti.cells.map (fun c => { c with column_index := g c.column_index }) } =
      tableBlock ti := by
  simp only [tableBlock, maxRowIndex_remap, fillRows_remap]

/-- Rewriting column indices does not change the whole csv conversion. -/
theorem convert_to_csv_remap (g : Nat → Nat) :
    ∀ table_data : List TableInfo,
      convert_to_csv (remapColumns g table_data) = convert_to_csv table_data := by
  intro td
  induction td with
  | nil => rfl
  | cons ti rest ih =>
    have hblock := tableBlock_remap g ti
    simp only [remapColumns] at ih ⊢
    rw [List.map_cons, convert_to_csv, convert_to_csv, hblock, ih]

/-- C3: in the tabular export each cell's content is appended to the row at
that cell's `row_index` in cell-arrival order — content row `r` is exactly
the contents of the cells bearing row index `r`, in input order, whatever
their column indices — and `column_index`, though read, never influences
the output of `convert_to_csv`. -/
theorem convert_to_csv_placement (ti : TableInfo) (m : Nat)
    (hm : maxRowIndex ti.cells = some m) :
    (∀ r : Nat, r ≤ m →
      (fillRows (List.replicate (m + 1) []) ti.cells).getD r [] =
        (ti.cells.filter (fun c => c.row_index == r)).map
          (fun c => CsvItem.str c.content))
    ∧ ∀ (g : Nat → Nat) (table_data : List TableInfo),
        convert_to_csv (remapColumns g table_data) = convert_to_csv table_data := by
  constructor
  · intro r hr
    have hb : ∀ c ∈ ti.cells,
        c.row_index < (List.replicate (m + 1) ([] : List CsvItem)).length := by
      intro c hc
      rw [List.length_replicate]
      exact Nat.lt_succ_of_le (maxRowIndex_bound ti.cells m hm c hc)
    have hrlen : r < (List.replicate (m + 1) ([] : List CsvItem)).length := by
      rw [List.length_replicate]
      omega
    rw [fillRows_getD ti.cells _ r hb hrlen]
    rw [List.getD_eq_getElem?_getD, List.getElem?_replicate,
      if_pos (Nat.lt_succ_of_le hr)]
    rfl
  · intro g table_data
    exact convert_to_csv_remap g table_data

/-- Witness for C3 at a table whose row 0 receives column indices 5 then 2:
the contents still land in row 0 in arrival order. -/
theorem convert_to_csv_placement_witness :
    (∀ r : Nat, r ≤ 1 →
      (fillRows (List.replicate (1 + 1) []) tiW.cells).getD r [] =
        (tiW.cells.filter (fun c => c.row_index == r)).map
          (fun c => CsvItem.str c.content))
    ∧ ∀ (g : Nat → Nat) (table_data : List TableInfo),
        convert_to_csv (remapColumns g table_data) = convert_to_csv table_data :=
  convert_to_csv_placement tiW 1 rfl

/-- The block of a table whose cells reach maximum row index `m`. -/
theorem tableBlock_eq (ti : TableInfo) (m : Nat)
    (hm : maxRowIndex ti.cells = some m) :
    tableBlock ti =
      some ([[CsvItem.str "Page Number:", CsvItem.int ti.page_number]]
        ++ fillRows (List.replicate (m + 1) []) ti.cells ++ [[], []]) := by
  rw [tableBlock, hm]

/-- When every table has a cell, the conversion succeeds and concatenates
the blocks in table order. -/
theorem convert_to_csv_eq_flatMap :
    ∀ table_data : List TableInfo, (∀ ti ∈ table_data, ti.cells ≠ []) →
      convert_to_csv table_data =
        some (table_data.flatMap (fun ti => (tableBlock ti).getD [])) := by
  intro td
  induction td with
  | nil => intro _; rfl
  | cons ti rest ih =>
    intro h
    obtain ⟨m, hm⟩ := maxRowIndex_isSome ti.cells (h ti (List.mem_cons_self ti rest))
    simp only [convert_to_csv, tableBlock_eq ti m hm,
      ih (fun x hx => h x (List.mem_cons_of_mem ti hx)), List.flatMap_cons,
      Option.getD_some]

/-- C7: when every table record has a cell, `convert_to_csv` emits the
tables' blocks in table order, and the block of a table whose cells reach
maximum row index `m` is one header row `["Page Number:", page_number]`,
then `m + 1` content rows, then two blank separator rows — `m + 4` rows in
all, so a table with maximum row index 2 yields exactly 6 rows. -/
theorem convert_to_csv_blocks (table_data : List TableInfo)
    (h : ∀ ti ∈ table_data, ti.cells ≠ []) :
    (convert_to_csv table_data =
      some (table_data.flatMap (fun ti => (tableBlock ti).getD [])))
    ∧ ∀ ti ∈ table_data, ∀ m, maxRowIndex ti.cells = some m →
        (tableBlock ti).getD [] =
          [CsvItem.str "Page Number:", CsvItem.int ti.page_number]
            :: (fillRows (List.replicate (m + 1) []) ti.cells ++ [[], []])
        ∧ (fillRows (List.replicate (m + 1) []) ti.cells).length = m + 1
        ∧ ((tableBlock ti).getD []).length = m + 4 := by
  refine ⟨convert_to_csv_eq_flatMap table_data h, ?_⟩
  intro ti _ m hm
  rw [tableBlock_eq ti m hm]
  simp only [Option.getD_some]
  refine ⟨by simp, ?_, ?_⟩
  · rw [fillRows_length, List.length_replicate]
  · simp only [List.length_append, List.length_cons, List.length_nil,
      fillRows_length, List.length_replicate]
    omega

/-- Witness for C7 at one table with cells at row indices 0, 1 and 2. -/
theorem convert_to_csv_blocks_witness :
    (convert_to_csv tdW =
      some (tdW.flatMap (fun ti => (tableBlock ti).getD [])))
    ∧ ∀ ti ∈ tdW, ∀ m, maxRowIndex ti.cells = some m →
        (tableBlock ti).getD [] =
          [CsvItem.str "Page Number:", CsvItem.int ti.page_number]
            :: (fillRows (List.replicate (m + 1) []) ti.cells ++ [[], []])
        ∧ (fillRows (List.replicate (m + 1) []) ti.cells).length = m + 1
        ∧ ((tableBlock ti).getD []).length = m + 4 :=
  convert_to_csv_blocks tdW (by decide)

/-- Decoding inverts encoding elementwise along a list. -/
theorem mapM_map_roundtrip {α β : Type} (f : α → β) (g : β → Option α)
    (hfg : ∀ x, g (f x) = some x) :
    ∀ l : List α, (l.map f).mapM g = some l := by
  intro l
  induction l with
  | nil => rfl
  | cons x xs ih =>
    rw [List.map_cons, List.mapM_cons, hfg, ih]
    rfl

/-- One cell record decodes back from its JSON value. -/
theorem decodeCell_encodeCell (cell : CellInfo) :
    decodeCell (encodeCell cell) = some cell := by
  simp only [encodeCell, decodeCell]
  rw [if_pos ⟨Int.natCast_nonneg _, Int.natCast_nonneg _⟩]
  simp [Int.toNat_natCast]

/-- One table record decodes back from its JSON value. -/
theorem decodeTable_encodeTable (ti : TableInfo) :
    decodeTable (encodeTable ti) = some ti := by
  simp only [encodeTable, decodeTable]
  rw [mapM_map_roundtrip encodeCell decodeCell decodeCell_encodeCell]
  rfl

/-- C8: the structured (json) export round-trips: parsing the serialized
value of the accumulated table records yields exactly the same list of
`(page_number, cells)` records, each cell with its row index, column index
and content. -/
theorem encode_decode_roundtrip (table_data : List TableInfo) :
    decodeTableData (encodeTableData table_data) = some table_data := by
  simp only [encodeTableData, decodeTableData]
  exact mapM_map_roundtrip encodeTable decodeTable decodeTable_encodeTable table_data
